import Mathlib

set_option maxRecDepth 100000

attribute [local semireducible] Rat.add Rat.sub Rat.mul Rat.inv

/-!
Verification development for the usv-web-control media relay server.

Shallow embedding of the rate limiting, ping/pong latency tracking,
broadcast fan-out, frame-rate auto-detection, encoder capability
detection and video pipeline management logic found in
src/server/handlers.py, src/server/usv_node.py and
src/server/video_stream.py.  Wall-clock times are modelled as exact
rationals, in seconds (milliseconds for the ping/pong code, matching the
source's use of time.time()*1000 there).  Python dictionaries holding
per-topic state are modelled as the fields of a per-topic state record,
since every claim is about a single source/topic; the server-wide
per-topic map of a claim about several topics is modelled as a function
from topic names.  Exceptions raised by Python code are modelled either
as an explicit outcome constructor or, where an exception aborts a loop,
by the loop returning early.
-/

namespace USV

/-! ### Video pipeline embedding (src/server/video_stream.py, usv_node.py) -/

/-- Observable actions of the pipeline management code: log lines,
subprocess spawns, restarts of each kind, frame feeds and video-metadata
broadcasts.  These mirror, in order, the side effects the Python code
performs. -/
inductive Ev where
  | startAttempt (fps : ℕ) (encoding : String)
  | spawnProcess
  | logUnsupported (encoding : String)
  | logFfmpegMissing
  | crashRestart
  | paramRestart
  | fpsRestart
  | settingsRestart
  | sendVideoMeta (fps width height : ℕ)
  | feedFrame
  deriving DecidableEq, Repr

/-- Mirrors ROS_TO_FFMPEG_PIXFMT in src/server/video_stream.py: the map
from ROS2 image encodings to FFmpeg pixel formats. -/
def ROS_TO_FFMPEG_PIXFMT (enc : String) : Option String :=
  if enc = "bgr8" then some "bgr24"
  else if enc = "rgb8" then some "rgb24"
  else if enc = "mono8" then some "gray"
  else if enc = "bgra8" then some "bgra"
  else if enc = "rgba8" then some "rgba"
  else if enc = "8UC1" then some "gray"
  else if enc = "8UC3" then some "bgr24"
  else if enc = "8UC4" then some "bgra"
  else none

/-- One H264Stream object (class H264Stream in video_stream.py).
`processRunning` models `self._process is not None and self._process.poll()
is None`, i.e. the `alive` property.  `lastRestartTime` models the
`_last_restart_time` attribute set by on_image_msg's crash path; `getattr`
with default 0.0 is modelled by initialising the field to 0. -/
structure H264Stream where
  width : ℕ
  height : ℕ
  fps : ℕ
  encoding : String
  quality : String
  processRunning : Bool
  lastRestartTime : ℚ
  deriving DecidableEq, Repr

/-- Mirrors H264Stream._start_ffmpeg.  If the encoding has no FFmpeg pixel
format, the error is logged and the method returns without spawning
anything (the process stays None).  Otherwise subprocess.Popen is
attempted; `ffmpegAvailable = false` models FileNotFoundError, after which
the process is None.  The fps recorded in `Ev.startAttempt` is `self.fps`,
the rate the pipeline is configured with. -/
def start_ffmpeg (s : H264Stream) (ffmpegAvailable : Bool) : H264Stream × List Ev :=
  match ROS_TO_FFMPEG_PIXFMT s.encoding with
  | none =>
      ({ s with processRunning := false },
       [Ev.startAttempt s.fps s.encoding, Ev.logUnsupported s.encoding])
  | some _ =>
      if ffmpegAvailable then
        ({ s with processRunning := true },
         [Ev.startAttempt s.fps s.encoding, Ev.spawnProcess])
      else
        ({ s with processRunning := false },
         [Ev.startAttempt s.fps s.encoding, Ev.spawnProcess, Ev.logFfmpegMissing])

/-- Mirrors H264Stream.restart: stop() (which terminates the process, so
afterwards it is not running) followed by updating the parameters and
_start_ffmpeg.  The `_last_restart_time` attribute is untouched. -/
def H264Stream.restartWith (s : H264Stream) (w hpx fps : ℕ) (enc q : String)
    (ffmpegAvailable : Bool) : H264Stream × List Ev :=
  start_ffmpeg { s with width := w, height := hpx, fps := fps, encoding := enc,
                        quality := q, processRunning := false } ffmpegAvailable

/-- Mirrors H264Stream.feed_frame: a no-op when the process is gone,
otherwise the frame is queued for the writer thread. -/
def feedEvents (s : H264Stream) : List Ev :=
  if s.processRunning then [Ev.feedFrame] else []

/-- The per-topic slice of USVWebNode state touched by on_image_msg,
_detect_fps and on_video_settings: `frameCheckpoint` is
_frame_timestamps[topic], `frameCount` is _image_frame_count[topic] (0
models an absent key: .get(topic, 0)), `detectedFps` is
_detected_fps[topic], `lastImageFeedTime` is _last_image_feed_time[topic]
(with .get default 0.0), `videoStream` is video_streams[topic] and
`settings` is _video_settings[topic] as the (fps, quality) pair. -/
structure TopicState where
  frameCheckpoint : Option ℚ
  frameCount : ℕ
  detectedFps : Option ℕ
  lastImageFeedTime : ℚ
  videoStream : Option H264Stream
  settings : Option (ℕ × String)
  deriving DecidableEq, Repr

/-- The initial per-topic state: none of the per-topic dictionaries has an
entry for the topic yet. -/
def initTopicState : TopicState :=
  { frameCheckpoint := none, frameCount := 0, detectedFps := none,
    lastImageFeedTime := 0, videoStream := none, settings := none }

/-- settings.get("fps", 0) in on_image_msg. -/
def TopicState.fpsOverride (st : TopicState) : ℕ :=
  (st.settings.map Prod.fst).getD 0

/-- settings.get("quality", "medium") in on_image_msg. -/
def TopicState.qualitySetting (st : TopicState) : String :=
  (st.settings.map Prod.snd).getD "medium"

/-- self.default_video_fps in USVWebNode.__init__. -/
def default_video_fps : ℕ := 30

/-- The common_fps candidate list inside _detect_fps. -/
def common_fps : List ℕ := [10, 15, 20, 24, 25, 30, 50, 60, 90, 120]

/-- min(common_fps, key=lambda f: abs(f - raw_fps)): Python's min keeps
the first element whose key is strictly smaller than the current best, so
ties resolve to the earlier candidate. -/
def nearestCommonFps (raw : ℚ) : ℕ :=
  common_fps.foldl (fun (best f : ℕ) => if |(f : ℚ) - raw| < |(best : ℚ) - raw| then f else best) 10

/-- Mirrors USVWebNode._detect_fps for one topic.  Returns the updated
per-topic state and the int FPS the function returns.  Every frame bumps
the counter; the first frame records the checkpoint; while less than one
second has elapsed the previously stabilised value (or the default 30) is
returned; after at least one second the raw rate (count-1)/elapsed is
snapped to the nearest common value, clamped to [5, 120], and hysteresis
keeps the previous value when the raw rate deviates from it by strictly
less than 20 percent. -/
def detect_fps (st : TopicState) (now : ℚ) : TopicState × ℕ :=
  let count := st.frameCount + 1
  match st.frameCheckpoint with
  | none =>
      ({ st with frameCount := count, frameCheckpoint := some now },
       st.detectedFps.getD default_video_fps)
  | some startTime =>
      let elapsed := now - startTime
      if elapsed < 1 then
        ({ st with frameCount := count }, st.detectedFps.getD default_video_fps)
      else
        let raw : ℚ := ((count : ℚ) - 1) / elapsed
        let snapped := max 5 (min 120 (nearestCommonFps raw))
        let detected :=
          match st.detectedFps with
          | some prev => if |raw - (prev : ℚ)| / (prev : ℚ) < 1/5 then prev else snapped
          | none => snapped
        ({ st with frameCount := 1, frameCheckpoint := some now,
                   detectedFps := some detected }, detected)

/-- The target rate on_image_msg passes to the pipeline after applying
the browser override: settings.get("fps", 0) replaces the
min(source, max) rate with min(override, max) whenever it is positive. -/
def imageTargetFps (maxFps sourceFps : ℕ) (settings : Option (ℕ × String)) : ℕ :=
  let fpsOverride := (settings.map Prod.fst).getD 0
  if 0 < fpsOverride then min fpsOverride maxFps else min sourceFps maxFps

/-- The target rate on_video_settings passes to the pipeline: the
override when positive, else the detected rate (default 30), capped by
get_max_fps(). -/
def settingsTargetFps (maxFps fpsArg : ℕ) (detected : Option ℕ) : ℕ :=
  min (if 0 < fpsArg then fpsArg else detected.getD default_video_fps) maxFps

/-- Mirrors USVWebNode.on_image_msg for one topic.  `maxFps` is the value
of get_max_fps() (10 for the software encoder, 60 for hardware), `avail`
models whether the ffmpeg binary exists.  The function performs, in source
order: FPS detection, target-rate computation min(source, max), the
pre-copy throttle gate with 1 ms tolerance, the browser fps override
(which, when positive, replaces the target with min(override, max)), and
then either lazily creates the H264Stream, restarts a dead one subject to
the 2-second cooldown, restarts on dimension/encoding change, restarts on
target-rate change, or just feeds the frame. -/
def on_image_msg (maxFps : ℕ) (avail : Bool) (st : TopicState) (now : ℚ)
    (w hpx : ℕ) (enc : String) : TopicState × List Ev :=
  let d := detect_fps st now
  let st1 := d.1
  let sourceFps := d.2
  let targetFps0 := min sourceFps maxFps
  let minInterval : ℚ := 1 / (targetFps0 : ℚ)
  if now - st1.lastImageFeedTime < minInterval - 1/1000 then
    (st1, [])
  else
    let st2 := { st1 with lastImageFeedTime := now }
    let targetFps := imageTargetFps maxFps sourceFps st2.settings
    let q := st2.qualitySetting
    match st2.videoStream with
    | none =>
        let r := start_ffmpeg ⟨w, hpx, targetFps, enc, q, false, 0⟩ avail
        ({ st2 with videoStream := some r.1 },
         r.2 ++ [Ev.sendVideoMeta targetFps w hpx] ++ feedEvents r.1)
    | some s =>
        if s.processRunning = false then
          if now - s.lastRestartTime < 2 then
            (st2, [])
          else
            let r := H264Stream.restartWith { s with lastRestartTime := now }
                       w hpx targetFps enc q avail
            ({ st2 with videoStream := some r.1 },
             Ev.crashRestart :: r.2 ++ [Ev.sendVideoMeta targetFps w hpx] ++ feedEvents r.1)
        else if s.width ≠ w ∨ s.height ≠ hpx ∨ s.encoding ≠ enc then
          let r := s.restartWith w hpx targetFps enc q avail
          ({ st2 with videoStream := some r.1 },
           Ev.paramRestart :: r.2 ++ [Ev.sendVideoMeta targetFps w hpx] ++ feedEvents r.1)
        else if s.fps ≠ targetFps then
          let r := s.restartWith w hpx targetFps enc q avail
          ({ st2 with videoStream := some r.1 },
           Ev.fpsRestart :: r.2 ++ [Ev.sendVideoMeta targetFps w hpx] ++ feedEvents r.1)
        else
          (st2, feedEvents s)

/-- Mirrors USVWebNode.on_video_settings for a ROS2 image topic (the
FFmpeg branch).  `fpsArg` is the already-normalised integer fps (0 means
auto); `qualityArg` is the raw quality value from the client. -/
def on_video_settings (maxFps : ℕ) (avail : Bool) (st : TopicState)
    (fpsArg : ℕ) (qualityArg : Option String) : TopicState × List Ev :=
  let quality :=
    match qualityArg with
    | some q => if q = "low" ∨ q = "medium" ∨ q = "high" then q else "medium"
    | none => "medium"
  let noChange : Bool :=
    match st.settings with
    | some pq => decide (pq.1 = fpsArg ∧ pq.2 = quality)
    | none => false
  if noChange then (st, [])
  else
    let st1 := { st with settings := some (fpsArg, quality) }
    match st1.videoStream with
    | some s =>
        let target := settingsTargetFps maxFps fpsArg st1.detectedFps
        let r := s.restartWith s.width s.height target s.encoding quality avail
        ({ st1 with videoStream := some r.1 },
         Ev.settingsRestart :: r.2 ++ [Ev.sendVideoMeta target s.width s.height])
    | none => (st1, [])

/-- Models the external encoder process exiting (crash): poll() starts
returning a value, so the `alive` property becomes false. -/
def processDied (st : TopicState) : TopicState :=
  { st with videoStream := st.videoStream.map (fun s => { s with processRunning := false }) }

/-- Feed a sequence of image frames at the given times through
on_image_msg, with fixed dimensions and encoding. -/
def runImageFrames (maxFps : ℕ) (avail : Bool) (ts : List ℚ)
    (w hpx : ℕ) (enc : String) (st : TopicState) : TopicState :=
  ts.foldl (fun s t => (on_image_msg maxFps avail s t w hpx enc).1) st

/-! ### Capability detector (src/server/video_stream.py) -/

/-- The candidate hardware encoders _detect_best_encoder probes, in
source order: NVENC first, then QSV. -/
def test_encoders : List String := ["nvenc", "qsv"]

/-- Mirrors _detect_best_encoder.  `probeOk name` abstracts the outcome
of _run_probe for that candidate: False covers every failure mode there
(nonzero exit code, FileNotFoundError, TimeoutExpired, other exception).
The loop returns the first candidate whose probe succeeds; if none does,
the software fallback "sw" is returned. -/
def detect_best_encoder (probeOk : String → Bool) : String :=
  (test_encoders.find? probeOk).getD "sw"

/-- _SW_MAX_FPS in video_stream.py. -/
def SW_MAX_FPS : ℕ := 10

/-- Mirrors get_max_fps, as a function of the cached detected encoder. -/
def get_max_fps (bestEncoder : String) : ℕ :=
  if bestEncoder = "sw" then SW_MAX_FPS else 60

/-! ### Transport core: broadcast fan-out (src/server/handlers.py) -/

/-- One connected WebSocket client as the broadcast loops see it, for a
fixed topic.  `subscribed` models membership of the client id in the
topic's subscription set; `ratePass` models the per-client per-topic rate
limit test passing for the current message; `connected` models
`sock.ws_connection and not sock.ws_connection.is_closing()`; `writeFails`
models sock.write_message raising (closing or broken connection). -/
structure WsClient where
  cid : ℕ
  subscribed : Bool
  ratePass : Bool
  connected : Bool
  writeFails : Bool
  deriving DecidableEq, Repr

/-- The MSG_MSG branch of USVSocketHandler.broadcast.  The whole for-loop
runs inside one try/except, with no per-client exception handling: a
client whose write_message raises aborts the iteration (the exception is
caught and logged at the level of the whole broadcast call), so every
client not yet visited is skipped.  Returns the ids of the clients the
message was actually written to, in iteration order. -/
def broadcast_msg : List WsClient → List ℕ
  | [] => []
  | c :: rest =>
    if c.subscribed then
      if c.ratePass then
        if c.connected then
          if c.writeFails then []
          else c.cid :: broadcast_msg rest
        else broadcast_msg rest
      else broadcast_msg rest
    else broadcast_msg rest

/-- USVSocketHandler.broadcast_binary.  Each client's write_message sits
in its own try/except whose handler is `pass`, so a failing write only
skips that client.  There is no rate limiting on binary sends.  Returns
the ids of the clients the frame was written to, in iteration order. -/
def broadcast_binary : List WsClient → List ℕ
  | [] => []
  | c :: rest =>
    if c.subscribed && c.connected then
      if c.writeFails then broadcast_binary rest
      else c.cid :: broadcast_binary rest
    else broadcast_binary rest

/-- The clients of a list that the MSG_MSG loop would write to if no
exception ever occurred: subscribed, rate-gate passing and connected. -/
def deliverableIds (cs : List WsClient) : List ℕ :=
  cs.filterMap (fun c => if c.subscribed && c.ratePass && c.connected then some c.cid else none)

/-! ### Transport core: per-client per-topic rate limiting
(USVSocketHandler.broadcast, MSG_MSG branch, and the claim's delivery
count over a message schedule) -/

/-- The 2e-4 second (0.2 ms) scheduling-jitter tolerance in broadcast. -/
def BROADCAST_TOL : ℚ := 1/5000

/-- Rate limiter state for one (client, topic) pair: the timestamp of the
last send (last_data_times_by_topic, .get default 0.0) and the times of
the messages actually delivered so far, in order. -/
structure GateState where
  lastDataTime : ℚ
  delivered : List ℚ
  deriving DecidableEq, Repr

/-- One message arriving at time `t` for a connected, subscribed client
with configured interval `I` (update_intervals_by_topic[topic]): skipped
when the elapsed time since the last send is below I - 2e-4, otherwise
written and the last-send time updated. -/
def clientGateStep (I : ℚ) (st : GateState) (t : ℚ) : GateState :=
  if t - st.lastDataTime < I - BROADCAST_TOL then st
  else { lastDataTime := t, delivered := st.delivered ++ [t] }

/-- Run the per-client rate limiter over a schedule of message times,
starting from the fresh-client state (last send time 0). -/
def runClientGate (I : ℚ) (ts : List ℚ) : GateState :=
  ts.foldl (clientGateStep I) ⟨0, []⟩

/-- A schedule of M+1 messages published at fixed spacing dt starting at
time t0. -/
def msgTimes (t0 dt : ℚ) (M : ℕ) : List ℚ :=
  (List.range (M + 1)).map (fun (j : ℕ) => t0 + (j : ℚ) * dt)

/-- The delivery times the rate limiter produces on such a schedule when
the spacing divides the interval: every k-th message, in publish order. -/
def deliveredExpected (t0 dt : ℚ) (k n : ℕ) : List ℚ :=
  (List.range n).map (fun i => t0 + ((k * i : ℕ) : ℚ) * dt)

/-! ### Transport core: ping/pong latency tracking
(USVSocketHandler.send_pings / on_message MSG_PONG branch).  Times are in
milliseconds, as in the source (time.time() * 1000). -/

/-- Per-client ping state: the 1024-slot ring of ping send times
(last_ping_times), the ping sequence counter and the last computed
latency. -/
structure PingState where
  lastPingTimes : Fin 1024 → ℚ
  pingSeq : ℕ
  latency : ℚ

/-- Index used by send_pings: ping_seq % 1024. -/
def pingIndex (seq : ℕ) : Fin 1024 :=
  ⟨seq % 1024, Nat.mod_lt _ (by norm_num)⟩

/-- Index used by the pong handler: seq % 1024 where seq is the (possibly
arbitrary, possibly negative) integer the client sent.  Python's % on ints
with positive modulus yields a value in [0, 1024), matching Int.emod. -/
def pongIndex (s : ℤ) : Fin 1024 :=
  ⟨(s % 1024).toNat, by omega⟩

/-- One iteration of the send_pings loop for one client: record now into
the ring at ping_seq % 1024, (attempt to) send the ping, then increment
ping_seq.  The recording and the increment happen regardless of whether
the connection is closing. -/
def send_ping (st : PingState) (now : ℚ) : PingState :=
  { st with
    lastPingTimes := Function.update st.lastPingTimes (pingIndex st.pingSeq) now,
    pingSeq := st.pingSeq + 1 }

/-- The MSG_PONG branch of on_message: latency := (now - ring[s % 1024]) / 2.
Total for every integer sequence number: an out-of-range or stale value
just reads a stale slot; no error is raised. -/
def on_pong (st : PingState) (s : ℤ) (now : ℚ) : PingState :=
  { st with latency := (now - st.lastPingTimes (pongIndex s)) / 2 }

/-! ### Subscribe handling (USVSocketHandler.on_message, MSG_SUB branch)
and the server-wide per-topic interval map (USVWebNode) -/

/-- Outcome of running a piece of Python code that may raise. -/
inductive PyOutcome (α : Type) where
  | raised (exn : String)
  | returned (a : α)
  deriving DecidableEq, Repr

/-- The MSG_SUB branch of on_message for one topic, given the payload's
topicName and maxUpdateRate fields (none models an absent key; an absent
maxUpdateRate defaults to 24.0), the client's own interval entry for the
topic and the node-wide entry.  Returns the pair (client entry, node
entry) after the branch, or the exception it raises.  1.0/0.0 raises
ZeroDivisionError in Python, and on_message has no handler for it, so the
computation aborts before either map is written. -/
def on_message_sub (topicName : Option String) (maxUpdateRate : Option ℚ)
    (clientEntry nodeEntry : Option ℚ) : PyOutcome (Option ℚ × Option ℚ) :=
  match topicName with
  | none => .returned (clientEntry, nodeEntry)
  | some _ =>
      let rate := maxUpdateRate.getD 24
      if rate = 0 then .raised "ZeroDivisionError"
      else
        let ci := 1 / rate
        .returned (some ci, some (min (nodeEntry.getD 1) ci))

/-- The slices of USVWebNode state relevant to the lifetime of the
server-wide per-topic minimum interval map: the map itself
(update_intervals_by_topic), the per-topic remote subscription sets
(remote_subs) and the per-topic feed/detection state sync_subs clears when
a topic loses its last subscriber. -/
structure NodeMaps where
  updateIntervals : String → Option ℚ
  remoteSubs : String → List ℕ
  localSub : String → Bool
  frameCheckpoint : String → Option ℚ
  frameCount : String → Option ℕ
  detectedFpsMap : String → Option ℕ
  lastFeedTime : String → Option ℚ

/-- The operations that touch the subscription machinery: a subscribe
message (client id, topic, declared max update rate), an unsubscribe
message, a client disconnect (on_close), and the sync_subs cleanup pass
for a topic whose subscriber set has become empty. -/
inductive NodeOp where
  | subscribe (c : ℕ) (topic : String) (rate : ℚ)
  | unsubscribe (c : ℕ) (topic : String)
  | disconnect (c : ℕ)
  | cleanupTopic (topic : String)

/-- Effect of each operation on the node state.  subscribe with rate 0
raises ZeroDivisionError while computing the client's own interval, i.e.
before any of the node's maps is written, so the node state is unchanged.
unsubscribe and disconnect only discard ids from subscription sets.  The
sync_subs cleanup pass destroys the local subscription, the stream and the
per-topic detection/throttle state, but never touches
update_intervals_by_topic. -/
def applyNodeOp (st : NodeMaps) : NodeOp → NodeMaps
  | .subscribe c topic rate =>
      if rate = 0 then st
      else
        { st with
          updateIntervals := fun t =>
            if t = topic then some (min ((st.updateIntervals topic).getD 1) (1 / rate))
            else st.updateIntervals t,
          remoteSubs := fun t =>
            if t = topic then c :: (st.remoteSubs topic).filter (fun x => x ≠ c)
            else st.remoteSubs t }
  | .unsubscribe c topic =>
      { st with remoteSubs := fun t =>
          if t = topic then (st.remoteSubs topic).filter (fun x => x ≠ c)
          else st.remoteSubs t }
  | .disconnect c =>
      { st with remoteSubs := fun t => (st.remoteSubs t).filter (fun x => x ≠ c) }
  | .cleanupTopic topic =>
      { st with
        localSub := fun t => if t = topic then false else st.localSub t,
        frameCheckpoint := fun t => if t = topic then none else st.frameCheckpoint t,
        frameCount := fun t => if t = topic then none else st.frameCount t,
        detectedFpsMap := fun t => if t = topic then none else st.detectedFpsMap t,
        lastFeedTime := fun t => if t = topic then none else st.lastFeedTime t }

/-! ### Concrete traces used to evaluate the embedded code at explicit inputs -/

/-- A frame schedule for the estimator: 16 frames over the first second
(raw rate 15), then 19 frames over the next second ending at time 2, so
the second window's raw rate is 18, which deviates from the stabilised 15
by exactly 20 percent. -/
def c5Times : List ℚ :=
  [0] ++ ((List.range 14).map (fun k => ((k + 1 : ℕ) : ℚ) / 15)) ++ [1]
  ++ ((List.range 17).map (fun k => 1 + ((k + 1 : ℕ) : ℚ) / 18))

/-- The estimator state after feeding every c5Times frame except the
final one at time 2. -/
def c5Pre : TopicState :=
  c5Times.foldl (fun s t => (detect_fps s t).1) initTopicState

/-- A frame schedule whose second window detects a 10 fps source: one
frame at 100, nine more through the following second, one at 101. -/
def c1Times : List ℚ :=
  [100] ++ ((List.range 9).map (fun k => 100 + ((k + 1 : ℕ) : ℚ) / 10)) ++ [101]

/-- Topic state after the c1Times frames with a hardware encoder ceiling
of 60: a live 10 fps pipeline with detected source rate 10. -/
def c1St : TopicState := runImageFrames 60 true c1Times 640 480 "rgb8" initTopicState

/-- Topic state with a browser override of 60 fps recorded before any
frame has arrived (the client sent video-settings first). -/
def c1StB : TopicState := (on_video_settings 60 true initTopicState 60 (some "high")).1

/-- Crash/cooldown trace: create the pipeline at t=100, then repeatedly
kill it and send frames at t=103, t=106 (both crash-restarts), t=107.95
(dropped by the 2-second cooldown, refreshing the feed time) — leaving a
dead pipeline whose last restart attempt was at t=106. -/
def c6St4 : TopicState :=
  let s1 := (on_image_msg 60 true initTopicState 100 640 480 "rgb8").1
  let s2 := (on_image_msg 60 true (processDied s1) 103 640 480 "rgb8").1
  let s3 := (on_image_msg 60 true (processDied s2) 106 640 480 "rgb8").1
  (on_image_msg 60 true (processDied s3) (2159/20) 640 480 "rgb8").1

/-- Two clients for the broadcast counterexample: client 1's write raises,
client 2 is healthy; both are subscribed, connected and rate-gate
passing. -/
def c2Clients : List WsClient :=
  [{ cid := 1, subscribed := true, ratePass := true, connected := true, writeFails := true },
   { cid := 2, subscribed := true, ratePass := true, connected := true, writeFails := false }]

/-! ### Helper lemmas -/

/-- detect_fps never touches the settings override. -/
theorem detect_fps_settings (st : TopicState) (now : ℚ) :
    (detect_fps st now).1.settings = st.settings := by
  unfold detect_fps
  rcases st.frameCheckpoint with _ | c
  · rfl
  · by_cases hlt : now - c < 1 <;> simp [hlt]

/-- detect_fps never touches the stream handle. -/
theorem detect_fps_videoStream (st : TopicState) (now : ℚ) :
    (detect_fps st now).1.videoStream = st.videoStream := by
  unfold detect_fps
  rcases st.frameCheckpoint with _ | c
  · rfl
  · by_cases hlt : now - c < 1 <;> simp [hlt]

/-- detect_fps never touches the throttle timestamp. -/
theorem detect_fps_lastFeed (st : TopicState) (now : ℚ) :
    (detect_fps st now).1.lastImageFeedTime = st.lastImageFeedTime := by
  unfold detect_fps
  rcases st.frameCheckpoint with _ | c
  · rfl
  · by_cases hlt : now - c < 1 <;> simp [hlt]

/-- Any startAttempt event the spawner emits carries the stream's
configured fps and encoding. -/
theorem start_ffmpeg_startAttempt (s : H264Stream) (avail : Bool) (f : ℕ) (e : String)
    (hmem : Ev.startAttempt f e ∈ (start_ffmpeg s avail).2) :
    f = s.fps ∧ e = s.encoding := by
  unfold start_ffmpeg at hmem
  split at hmem
  · simp at hmem
    exact hmem
  · split at hmem <;> simp at hmem <;> exact hmem

/-- The spawner never emits a crashRestart marker. -/
theorem crashRestart_not_mem_start_ffmpeg (s : H264Stream) (avail : Bool) :
    Ev.crashRestart ∉ (start_ffmpeg s avail).2 := by
  unfold start_ffmpeg
  split
  · simp
  · split <;> simp

/-- The feed step never emits a startAttempt or crashRestart. -/
theorem feedEvents_mem (s : H264Stream) (ev : Ev) (hmem : ev ∈ feedEvents s) :
    ev = Ev.feedFrame := by
  unfold feedEvents at hmem
  by_cases hp : s.processRunning <;> simp [hp] at hmem
  exact hmem

/-! ### C7: ping/pong latency tracking -/

/-- C7: the ping sender records the current time into the 1024-slot ring
at index seq mod 1024 and then increments seq; the pong handler computes
latency = (now - ring[s mod 1024]) / 2 for every integer sequence number
(out-of-range values read a stale slot, no error); and a pong carrying the
matching sequence received at t2 for a ping recorded at t1 yields latency
exactly (t2 - t1)/2, which is within any nonnegative epsilon of it. -/
theorem C7_ping_latency (st : PingState) (t1 t2 : ℚ) (s : ℤ) :
    (send_ping st t1).pingSeq = st.pingSeq + 1 ∧
    (send_ping st t1).lastPingTimes (pingIndex st.pingSeq) = t1 ∧
    (on_pong st s t2).latency = (t2 - st.lastPingTimes (pongIndex s)) / 2 ∧
    (on_pong (send_ping st t1) (st.pingSeq : ℤ) t2).latency = (t2 - t1) / 2 := by
  have hidx : pongIndex (st.pingSeq : ℤ) = pingIndex st.pingSeq := by
    unfold pongIndex pingIndex
    apply Fin.ext
    show ((st.pingSeq : ℤ) % 1024).toNat = st.pingSeq % 1024
    omega
  refine ⟨rfl, ?_, rfl, ?_⟩
  · simp [send_ping]
  · simp [on_pong, send_ping, hidx]

/-! ### C8: encoder capability detection -/

/-- C8: the detector tries nvenc, then qsv, returning the first success
and falling back to "sw" when both probes fail; the exposed maximum frame
rate is the software cap 10 exactly when the result is "sw", and 60
otherwise. -/
theorem C8_encoder_detection (probeOk : String → Bool) :
    detect_best_encoder probeOk =
      (if probeOk "nvenc" then "nvenc" else if probeOk "qsv" then "qsv" else "sw") ∧
    get_max_fps (detect_best_encoder probeOk) =
      (if detect_best_encoder probeOk = "sw" then SW_MAX_FPS else 60) ∧
    ((get_max_fps (detect_best_encoder probeOk) = SW_MAX_FPS) ↔
      (detect_best_encoder probeOk = "sw")) := by
  have hdet : detect_best_encoder probeOk =
      (if probeOk "nvenc" then "nvenc" else if probeOk "qsv" then "qsv" else "sw") := by
    unfold detect_best_encoder test_encoders
    by_cases h1 : probeOk "nvenc" <;> by_cases h2 : probeOk "qsv" <;>
      simp [List.find?, h1, h2]
  refine ⟨hdet, ?_, ?_⟩ <;> rw [hdet] <;>
    by_cases h1 : probeOk "nvenc" <;> by_cases h2 : probeOk "qsv" <;>
    simp [h1, h2, get_max_fps, SW_MAX_FPS]

/-! ### C9: subscribe with maxUpdateRate 0 -/

/-- C9: a well-formed subscribe payload carrying maxUpdateRate 0 makes
the handler raise ZeroDivisionError while computing 1.0/maxUpdateRate (the
message is not dropped: on_message has no handler around this branch),
while every subscribe with a nonzero rate returns normally, updating the
client's and the node's interval entries. -/
theorem C9_zero_rate_subscribe (t : String) (clientEntry nodeEntry : Option ℚ) (r : ℚ) :
    on_message_sub (some t) (some 0) clientEntry nodeEntry = .raised "ZeroDivisionError" ∧
    (r ≠ 0 → on_message_sub (some t) (some r) clientEntry nodeEntry =
      .returned (some (1 / r), some (min (nodeEntry.getD 1) (1 / r)))) := by
  constructor
  · simp [on_message_sub]
  · intro hr
    simp [on_message_sub, hr]

/-! ### C10: the node-wide per-topic interval map is non-increasing -/

/-- C10: each subscribe sets the node-wide entry for its topic to
min(current or 1.0, 1/maxUpdateRate), and no operation of the
subscription machinery — subscribe, unsubscribe, client disconnect or the
reconciliation cleanup pass — ever increases or removes an entry of
update_intervals_by_topic. -/
theorem C10_interval_monotone (st : NodeMaps) (op : NodeOp) (t : String) :
    (∀ c topic r, op = .subscribe c topic r → r ≠ 0 →
        (applyNodeOp st op).updateIntervals topic
          = some (min ((st.updateIntervals topic).getD 1) (1 / r))) ∧
    (∀ v, st.updateIntervals t = some v →
        ∃ v2, (applyNodeOp st op).updateIntervals t = some v2 ∧ v2 ≤ v) := by
  constructor
  · rintro c topic r rfl hr
    simp [applyNodeOp, hr]
  · intro v hv
    cases op with
    | subscribe c topic r =>
        by_cases hr : r = 0
        · exact ⟨v, by simp [applyNodeOp, hr, hv], le_refl v⟩
        · by_cases ht : t = topic
          · subst ht
            refine ⟨min ((st.updateIntervals t).getD 1) (1 / r), ?_, ?_⟩
            · simp [applyNodeOp, hr]
            · rw [hv]
              exact min_le_left _ _
          · exact ⟨v, by simp [applyNodeOp, hr, ht, hv], le_refl v⟩
    | unsubscribe c topic => exact ⟨v, by simp [applyNodeOp, hv], le_refl v⟩
    | disconnect c => exact ⟨v, by simp [applyNodeOp, hv], le_refl v⟩
    | cleanupTopic topic => exact ⟨v, by simp [applyNodeOp, hv], le_refl v⟩

/-! ### C2: broadcast failure isolation -/

/-- Every subscribed, connected client whose write does not raise receives
the binary frame, wherever it sits in the iteration and whatever happens
to the other clients: broadcast_binary catches write errors per client. -/
theorem broadcast_binary_complete (cs : List WsClient) (x : WsClient)
    (hm : x ∈ cs) (hs : x.subscribed = true) (hc : x.connected = true)
    (hw : x.writeFails = false) : x.cid ∈ broadcast_binary cs := by
  induction cs with
  | nil => cases hm
  | cons a rest ih =>
      rcases List.mem_cons.mp hm with rfl | hm2
      · unfold broadcast_binary
        simp [hs, hc, hw]
      · unfold broadcast_binary
        by_cases h1 : a.subscribed && a.connected
        · rw [if_pos h1]
          by_cases h2 : a.writeFails
          · simpa [h2] using ih hm2
          · simp only [h2, Bool.false_eq_true, if_false, if_neg]
            exact List.mem_cons_of_mem _ (ih hm2)
        · rw [if_neg h1]
          exact ih hm2

/-- In the JSON MSG_MSG broadcast, a client whose write raises aborts the
whole loop: the delivered set is exactly the deliverable clients strictly
before the first failing deliverable client — nothing after it is
reached. -/
theorem broadcast_msg_abort (l1 : List WsClient) (c : WsClient) (l2 : List WsClient)
    (hok : ∀ c2 ∈ l1, ¬(c2.subscribed = true ∧ c2.ratePass = true ∧
      c2.connected = true ∧ c2.writeFails = true))
    (hs : c.subscribed = true) (hr : c.ratePass = true) (hc : c.connected = true)
    (hw : c.writeFails = true) :
    broadcast_msg (l1 ++ c :: l2) = deliverableIds l1 := by
  induction l1 with
  | nil =>
      simp only [List.nil_append]
      unfold broadcast_msg
      simp [hs, hr, hc, hw, deliverableIds]
  | cons a rest ih =>
      have hok2 : ∀ c2 ∈ rest, ¬(c2.subscribed = true ∧ c2.ratePass = true ∧
          c2.connected = true ∧ c2.writeFails = true) :=
        fun c2 hm => hok c2 (List.mem_cons_of_mem _ hm)
      have ha := hok a (List.mem_cons_self _ _)
      simp only [List.cons_append]
      unfold broadcast_msg deliverableIds
      by_cases h1 : a.subscribed = true
      · by_cases h2 : a.ratePass = true
        · by_cases h3 : a.connected = true
          · have h4 : a.writeFails = false := by
              by_contra hx
              exact ha ⟨h1, h2, h3, by simpa using hx⟩
            simp only [h1, h2, h3, h4, if_true, Bool.false_eq_true, if_false,
              Bool.true_and, List.filterMap_cons]
            rw [ih hok2]
            simp [deliverableIds]
          · have h3f : a.connected = false := by simpa using h3
            simp only [h1, h2, h3f, if_true, Bool.false_eq_true, if_false,
              List.filterMap_cons, Bool.true_and, Bool.and_false]
            rw [ih hok2]
            simp [deliverableIds]
        · have h2f : a.ratePass = false := by simpa using h2
          simp only [h1, h2f, if_true, Bool.false_eq_true, if_false,
            List.filterMap_cons, Bool.true_and, Bool.false_and, Bool.and_false]
          rw [ih hok2]
          simp [deliverableIds]
      · have h1f : a.subscribed = false := by simpa using h1
        simp only [h1f, Bool.false_eq_true, if_false, List.filterMap_cons,
          Bool.false_and]
        rw [ih hok2]
        simp [deliverableIds]

/-- C2 (amended): a write failure during the binary broadcast is caught
per client, and every other subscribed, connected, non-failing client
still receives the frame; a write failure during the JSON telemetry
broadcast is caught only around the whole loop, so exactly the
deliverable clients iterated before the first failing one receive the
message, and every client after it is skipped in that call. -/
theorem C2_broadcast_isolation (cs l1 l2 : List WsClient) (x c : WsClient) :
    (x ∈ cs → x.subscribed = true → x.connected = true → x.writeFails = false →
      x.cid ∈ broadcast_binary cs) ∧
    ((∀ c2 ∈ l1, ¬(c2.subscribed = true ∧ c2.ratePass = true ∧
        c2.connected = true ∧ c2.writeFails = true)) →
      c.subscribed = true → c.ratePass = true → c.connected = true → c.writeFails = true →
      broadcast_msg (l1 ++ c :: l2) = deliverableIds l1) :=
  ⟨fun hm hs hc hw => broadcast_binary_complete cs x hm hs hc hw,
   fun hok hs hr hc hw => broadcast_msg_abort l1 c l2 hok hs hr hc hw⟩

/-- C2 counterexample: with client 1 (write raises) iterated before
client 2 (healthy), the JSON broadcast delivers to nobody — client 2,
although connected and subscribed, does not receive the message — while
the binary broadcast still delivers to client 2. -/
theorem C2_counterexample :
    broadcast_msg c2Clients = [] ∧ (2 : ℕ) ∉ broadcast_msg c2Clients ∧
    broadcast_binary c2Clients = [2] := by
  refine ⟨rfl, ?_, rfl⟩
  intro h
  simp [broadcast_msg, c2Clients] at h

/-! ### C4: per-client per-topic rate limiting -/

/-- A message is written only if the elapsed time since the last send for
that (client, topic) pair is at least the interval minus the 0.2 ms
tolerance. -/
theorem clientGateStep_only_if (I : ℚ) (st : GateState) (t : ℚ)
    (h : (clientGateStep I st t).delivered ≠ st.delivered) :
    I - BROADCAST_TOL ≤ t - st.lastDataTime := by
  unfold clientGateStep at h
  by_cases hlt : t - st.lastDataTime < I - BROADCAST_TOL
  · rw [if_pos hlt] at h
    exact absurd rfl h
  · exact le_of_not_lt hlt

/-- Appending one message to a schedule folds one more gate step. -/
theorem msgTimes_succ (t0 dt : ℚ) (M : ℕ) :
    msgTimes t0 dt (M + 1) = msgTimes t0 dt M ++ [t0 + ((M : ℚ) + 1) * dt] := by
  unfold msgTimes
  rw [List.range_succ]
  simp

/-- Peeling the last delivery off the expected delivery list. -/
theorem deliveredExpected_succ (t0 dt : ℚ) (k n : ℕ) :
    deliveredExpected t0 dt k (n + 1)
      = deliveredExpected t0 dt k n ++ [t0 + ((k * n : ℕ) : ℚ) * dt] := by
  unfold deliveredExpected
  rw [List.range_succ]
  simp

/-- Invariant of the rate limiter on a schedule with spacing dt dividing
the interval k*dt: after the first M+1 messages the last send happened at
message k*(M/k) and exactly the messages at indices 0, k, 2k, ... have
been delivered, in order. -/
theorem runClientGate_spacing (t0 dt : ℚ) (k : ℕ) (hk : 1 ≤ k)
    (hdt : BROADCAST_TOL < dt) (ht0 : (k : ℚ) * dt ≤ t0) (M : ℕ) :
    runClientGate ((k : ℚ) * dt) (msgTimes t0 dt M) =
      ⟨t0 + ((k * (M / k) : ℕ) : ℚ) * dt, deliveredExpected t0 dt k (M / k + 1)⟩ := by
  have htol : (0 : ℚ) < BROADCAST_TOL := by norm_num [BROADCAST_TOL]
  have hdt0 : (0 : ℚ) < dt := lt_trans htol hdt
  induction M with
  | zero =>
      unfold runClientGate msgTimes deliveredExpected
      simp only [Nat.zero_add, List.range_succ, List.range_zero, List.nil_append,
        List.map_cons, List.map_nil, List.foldl_cons, List.foldl_nil, Nat.zero_div,
        Nat.mul_zero, Nat.cast_zero]
      unfold clientGateStep
      rw [if_neg]
      · norm_num
      · push_neg
        simp only [Nat.cast_zero, zero_mul, add_zero, sub_zero]
        linarith
  | succ M ih =>
      have hsplit := Nat.div_add_mod M k
      have hrk : M % k < k := Nat.mod_lt _ (by omega)
      rw [msgTimes_succ]
      unfold runClientGate at ih ⊢
      rw [List.foldl_append, ih]
      simp only [List.foldl_cons, List.foldl_nil]
      have hcastM : ((k * (M / k) : ℕ) : ℚ) = (M : ℚ) - ((M % k : ℕ) : ℚ) := by
        have h2 := congrArg (fun n : ℕ => (n : ℚ)) hsplit
        push_cast at h2 ⊢
        linarith
      have hgap : t0 + ((M : ℚ) + 1) * dt - (t0 + ((k * (M / k) : ℕ) : ℚ) * dt)
          = (((M % k : ℕ) : ℚ) + 1) * dt := by
        rw [hcastM]
        ring
      by_cases hcase : M % k + 1 = k
      · -- this schedule position is the k-th message after the last delivery
        have hM1 : M + 1 = k * (M / k + 1) := by
          have h1 : M + 1 = k * (M / k) + (M % k + 1) := by omega
          rw [h1, hcase]
          ring
        have hdiv : (M + 1) / k = M / k + 1 := by
          rw [hM1, Nat.mul_div_cancel_left _ (show 0 < k by omega)]
        have hx : ((k * (M / k + 1) : ℕ) : ℚ) = (M : ℚ) + 1 := by
          rw [← hM1]
          push_cast
          ring
        unfold clientGateStep
        rw [if_neg, hdiv]
        · refine congrArg₂ GateState.mk ?_ ?_
          · rw [hx]
          · conv_rhs => rw [deliveredExpected_succ]
            rw [hx]
        · push_neg
          rw [hgap]
          have hck : ((M % k : ℕ) : ℚ) + 1 = (k : ℚ) := by
            exact_mod_cast congrArg (fun n : ℕ => (n : ℚ)) hcase
          rw [hck]
          linarith
      · -- an intermediate message: the gap is below the interval, skipped
        have hr1 : M % k + 1 < k := by omega
        have hdiv : (M + 1) / k = M / k := by
          have hM1 : M + 1 = k * (M / k) + (M % k + 1) := by omega
          rw [hM1, Nat.mul_add_div (show 0 < k by omega), Nat.div_eq_of_lt hr1,
            Nat.add_zero]
        unfold clientGateStep
        rw [if_pos, hdiv]
        rw [hgap]
        have h2 : M % k + 2 ≤ k := by omega
        have h2q : ((M % k : ℕ) : ℚ) + 2 ≤ (k : ℚ) := by exact_mod_cast h2
        have hmul : (((M % k : ℕ) : ℚ) + 1) * dt ≤ ((k : ℚ) - 1) * dt :=
          mul_le_mul_of_nonneg_right (by linarith) hdt0.le
        nlinarith

/-- C4 (amended): a message is sent to a connected subscribed client only
if the elapsed time since the last send to it for that topic is at least
the interval I minus the 0.2 ms tolerance; messages delivered are a
subsequence of those published (in order, no duplicates); and when the
publish spacing dt divides I (I = k*dt with dt above the tolerance and
the first message at least I after the client's initial timestamp),
exactly floor(duration/I)+1 = M/k+1 of the M+1 messages are delivered,
namely every k-th one.  For general sub-interval spacings the exact
floor(duration/I)+1 count of the original claim fails (see the
counterexample). -/
theorem C4_rate_limiting (I t0 dt : ℚ) (k M : ℕ) (st : GateState) (t : ℚ) :
    ((clientGateStep I st t).delivered ≠ st.delivered →
      I - BROADCAST_TOL ≤ t - st.lastDataTime) ∧
    (BROADCAST_TOL < dt → 1 ≤ k → (k : ℚ) * dt ≤ t0 → I = (k : ℚ) * dt →
      (runClientGate I (msgTimes t0 dt M)).delivered = deliveredExpected t0 dt k (M / k + 1) ∧
      (runClientGate I (msgTimes t0 dt M)).delivered.length
        = Nat.floor (((M : ℚ) * dt) / I) + 1) := by
  constructor
  · exact clientGateStep_only_if I st t
  · intro hdt hk ht0 hI
    subst hI
    have hrun := runClientGate_spacing t0 dt k hk hdt ht0 M
    rw [hrun]
    constructor
    · rfl
    · have hk0 : (k : ℚ) ≠ 0 := by
        have : (0 : ℕ) < k := by omega
        exact_mod_cast Nat.pos_iff_ne_zero.mp this
      have hdt0 : dt ≠ 0 := by
        have htol : (0 : ℚ) < BROADCAST_TOL := by norm_num [BROADCAST_TOL]
        exact ne_of_gt (lt_trans htol hdt)
      have hfloor : ((M : ℚ) * dt) / ((k : ℚ) * dt) = (M : ℚ) / (k : ℚ) := by
        rw [mul_div_mul_right _ _ hdt0]
      rw [hfloor, Nat.floor_div_nat]
      unfold deliveredExpected
      simp

/-- C4 counterexample: with interval I = 1 s and messages every 2/3 s
(sub-interval spacing) for a duration of 2 s (4 messages at 100, 100+2/3,
100+4/3, 102), only 2 messages are delivered, not floor(2/1)+1 = 3: the
delivery instants snap to message arrivals, so gates reopen late. -/
theorem C4_counterexample :
    (runClientGate 1 (msgTimes 100 (2/3) 3)).delivered.length = 2 ∧
    Nat.floor (((3 : ℚ) * (2/3)) / 1) + 1 = 3 ∧ (2 : ℕ) ≠ 3 := by
  refine ⟨by decide, ?_, by decide⟩
  norm_num

/-- Sanity check of the divisor-spacing count at a concrete input:
interval 1 s, messages every 1/2 s for 2 s (5 messages) deliver
floor(2/1)+1 = 3 times. -/
theorem runClientGate_half_spacing_check :
    (runClientGate 1 (msgTimes 100 (1/2) 4)).delivered.length = 3 := by decide

/-! ### C5: frame-rate estimator -/

/-- C5 (amended): while the checkpoint is unset (first frame) or less
than one second old, the estimator just counts the frame and returns the
previously stabilised rate (default 30); once at least one second has
elapsed it computes raw = (count-1)/elapsed, resets checkpoint and
counter, snaps raw to the nearest candidate clamped to [5,120], keeps the
previously stabilised value when raw deviates from it by strictly less
than 20 percent, and adopts the snapped value when the deviation is 20
percent or more (the original claim's "no more than 20 percent keeps"
fails exactly at the 20 percent boundary). -/
theorem C5_fps_estimator (st : TopicState) (now c : ℚ) (prev : ℕ) :
    (st.frameCheckpoint = none →
      detect_fps st now =
        ({ st with frameCount := st.frameCount + 1, frameCheckpoint := some now },
         st.detectedFps.getD default_video_fps)) ∧
    (st.frameCheckpoint = some c → now - c < 1 →
      detect_fps st now =
        ({ st with frameCount := st.frameCount + 1 },
         st.detectedFps.getD default_video_fps)) ∧
    (st.frameCheckpoint = some c → 1 ≤ now - c → st.detectedFps = some prev →
      |(((st.frameCount + 1 : ℕ) : ℚ) - 1) / (now - c) - (prev : ℚ)| / (prev : ℚ) < 1/5 →
      detect_fps st now =
        ({ st with frameCount := 1, frameCheckpoint := some now,
                   detectedFps := some prev }, prev)) ∧
    (st.frameCheckpoint = some c → 1 ≤ now - c → st.detectedFps = some prev →
      1/5 ≤ |(((st.frameCount + 1 : ℕ) : ℚ) - 1) / (now - c) - (prev : ℚ)| / (prev : ℚ) →
      detect_fps st now =
        (let snapped := max 5 (min 120 (nearestCommonFps
           ((((st.frameCount + 1 : ℕ) : ℚ) - 1) / (now - c))));
         ({ st with frameCount := 1, frameCheckpoint := some now,
                    detectedFps := some snapped }, snapped))) ∧
    (st.frameCheckpoint = some c → 1 ≤ now - c → st.detectedFps = none →
      detect_fps st now =
        (let snapped := max 5 (min 120 (nearestCommonFps
           ((((st.frameCount + 1 : ℕ) : ℚ) - 1) / (now - c))));
         ({ st with frameCount := 1, frameCheckpoint := some now,
                    detectedFps := some snapped }, snapped))) := by
  refine ⟨?_, ?_, ?_, ?_, ?_⟩
  · intro h1
    unfold detect_fps
    rw [h1]
  · intro h1 h2
    unfold detect_fps
    rw [h1]
    simp only [if_pos h2]
  · intro h1 h2 h3 h4
    unfold detect_fps
    rw [h1]
    simp only [if_neg (not_lt.mpr h2), h3]
    push_cast
    push_cast at h4
    simp only [if_pos h4]
  · intro h1 h2 h3 h4
    unfold detect_fps
    rw [h1]
    simp only [if_neg (not_lt.mpr h2), h3]
    push_cast
    push_cast at h4
    simp only [if_neg (not_lt.mpr h4)]
  · intro h1 h2 h3
    unfold detect_fps
    rw [h1]
    simp only [if_neg (not_lt.mpr h2), h3]

/-- C5 counterexample: after a 1-second window stabilising 15 fps, a
window of raw rate 18 — deviation from 15 exactly 20 percent — makes the
code adopt the snapped value 20 instead of keeping 15 as the claim's "no
more than 20 percent" hysteresis would. -/
theorem C5_counterexample :
    c5Pre.detectedFps = some 15 ∧
    c5Pre.frameCheckpoint = some 1 ∧
    |(((c5Pre.frameCount + 1 : ℕ) : ℚ) - 1) / ((2 : ℚ) - 1) - 15| / 15 = 1/5 ∧
    (detect_fps c5Pre 2).1.detectedFps = some 20 ∧
    (detect_fps c5Pre 2).2 = 20 := by decide

/-! ### Event decomposition helpers for the on_image_msg branches -/

/-- A startAttempt inside a restart branch (marker event, spawner events,
metadata, feed) carries the restarted stream's configured fps and
encoding. -/
theorem startAttempt_mem_tagged (f : ℕ) (e : String) (tag : Ev) (X Y : H264Stream)
    (a b c : ℕ) (avail : Bool)
    (htag : ∀ f2 e2, tag ≠ Ev.startAttempt f2 e2)
    (hmem : Ev.startAttempt f e ∈
      tag :: (start_ffmpeg X avail).2 ++ [Ev.sendVideoMeta a b c] ++ feedEvents Y) :
    f = X.fps ∧ e = X.encoding := by
  rcases List.mem_append.mp hmem with h1 | hF
  · rcases List.mem_append.mp h1 with h2 | hM
    · rcases List.mem_cons.mp h2 with htg | hS
      · exact absurd htg.symm (htag f e)
      · exact start_ffmpeg_startAttempt X avail f e hS
    · simp at hM
  · simpa using feedEvents_mem Y _ hF

/-- A startAttempt inside a creation branch (spawner events, metadata,
feed) carries the created stream's configured fps and encoding. -/
theorem startAttempt_mem_untagged (f : ℕ) (e : String) (X Y : H264Stream)
    (a b c : ℕ) (avail : Bool)
    (hmem : Ev.startAttempt f e ∈
      (start_ffmpeg X avail).2 ++ [Ev.sendVideoMeta a b c] ++ feedEvents Y) :
    f = X.fps ∧ e = X.encoding := by
  rcases List.mem_append.mp hmem with h1 | hF
  · rcases List.mem_append.mp h1 with hS | hM
    · exact start_ffmpeg_startAttempt X avail f e hS
    · simp at hM
  · simpa using feedEvents_mem Y _ hF

/-- crashRestart never occurs inside a branch opened by a different
marker. -/
theorem crashRestart_not_mem_tagged (tag : Ev) (X Y : H264Stream)
    (a b c : ℕ) (avail : Bool) (htag : tag ≠ Ev.crashRestart) :
    Ev.crashRestart ∉
      tag :: (start_ffmpeg X avail).2 ++ [Ev.sendVideoMeta a b c] ++ feedEvents Y := by
  intro hmem
  rcases List.mem_append.mp hmem with h1 | hF
  · rcases List.mem_append.mp h1 with h2 | hM
    · rcases List.mem_cons.mp h2 with htg | hS
      · exact htag htg.symm
      · exact crashRestart_not_mem_start_ffmpeg X avail hS
    · simp at hM
  · simpa using feedEvents_mem Y _ hF

/-- crashRestart never occurs inside the creation branch. -/
theorem crashRestart_not_mem_untagged (X Y : H264Stream)
    (a b c : ℕ) (avail : Bool) :
    Ev.crashRestart ∉
      (start_ffmpeg X avail).2 ++ [Ev.sendVideoMeta a b c] ++ feedEvents Y := by
  intro hmem
  rcases List.mem_append.mp hmem with h1 | hF
  · rcases List.mem_append.mp h1 with hS | hM
    · exact crashRestart_not_mem_start_ffmpeg X avail hS
    · simp at hM
  · simpa using feedEvents_mem Y _ hF

/-! ### C6: crash-restart cooldown -/

/-- C6 (amended): a crash-restart is triggered by an incoming frame only
if at least 2 seconds have elapsed since the previous restart attempt; a
frame arriving while the process is dead within the 2-second cooldown is
silently dropped (no events at all, stream untouched); and a frame that
passes the pre-copy throttle gate and arrives 2 or more seconds after the
previous attempt does trigger the restart.  (The original claim's
unconditional "a frame arriving after 2 or more seconds does trigger a
restart" fails for frames the throttle gate drops first — see the
counterexample.) -/
theorem C6_crash_cooldown (maxFps : ℕ) (avail : Bool) (st : TopicState) (now : ℚ)
    (w hpx : ℕ) (enc : String) (s : H264Stream) :
    (st.videoStream = some s →
      Ev.crashRestart ∈ (on_image_msg maxFps avail st now w hpx enc).2 →
      2 ≤ now - s.lastRestartTime) ∧
    (st.videoStream = some s → s.processRunning = false → now - s.lastRestartTime < 2 →
      (on_image_msg maxFps avail st now w hpx enc).2 = [] ∧
      (on_image_msg maxFps avail st now w hpx enc).1.videoStream = some s) ∧
    (st.videoStream = some s → s.processRunning = false →
      1 / ((min (detect_fps st now).2 maxFps : ℕ) : ℚ) - 1/1000 ≤ now - st.lastImageFeedTime →
      2 ≤ now - s.lastRestartTime →
      Ev.crashRestart ∈ (on_image_msg maxFps avail st now w hpx enc).2) := by
  have hvsd := detect_fps_videoStream st now
  have hlfd := detect_fps_lastFeed st now
  refine ⟨?_, ?_, ?_⟩
  · intro hvs hmem
    simp only [on_image_msg] at hmem
    split at hmem
    · simp at hmem
    · split at hmem
      · rename_i heq
        rw [hvsd, hvs] at heq
        cases heq
      · rename_i s2 heq
        rw [hvsd, hvs] at heq
        injection heq with heq2
        subst heq2
        split at hmem
        · split at hmem
          · simp at hmem
          · rename_i hcool
            exact le_of_not_lt hcool
        · split at hmem
          · exact absurd hmem (crashRestart_not_mem_tagged _ _ _ _ _ _ _ (by simp))
          · split at hmem
            · exact absurd hmem (crashRestart_not_mem_tagged _ _ _ _ _ _ _ (by simp))
            · simp only [feedEvents] at hmem
              split at hmem <;> simp at hmem
  · intro hvs hdead hcool
    simp only [on_image_msg]
    split
    · exact ⟨rfl, by rw [hvsd, hvs]⟩
    · split
      · rename_i heq
        rw [hvsd, hvs] at heq
        cases heq
      · rename_i s2 heq
        rw [hvsd, hvs] at heq
        injection heq with heq2
        subst heq2
        rw [if_pos hdead, if_pos hcool]
        exact ⟨rfl, by rw [hvsd, hvs]⟩
  · intro hvs hdead hthr hcool
    simp only [on_image_msg]
    rw [hlfd, if_neg (not_lt.mpr hthr)]
    split
    · rename_i heq
      rw [hvsd, hvs] at heq
      cases heq
    · rename_i s2 heq
      rw [hvsd, hvs] at heq
      injection heq with heq2
      subst heq2
      rw [if_pos hdead, if_neg (not_lt.mpr hcool)]
      exact List.mem_cons_self _ _

/-- C6 counterexample: after the c6St4 trace the pipeline is dead and its
last restart attempt was at t = 106; the frame arriving at t = 108.01 —
2.01 seconds later — triggers no restart at all (no events, stream
untouched), because the throttle gate drops it first (the previous frame
refreshed the feed time at t = 107.95 and the target interval is 0.1 s). -/
theorem C6_counterexample :
    c6St4.videoStream = some (⟨640, 480, 10, "rgb8", "medium", false, 106⟩ : H264Stream) ∧
    (2 : ℚ) ≤ (10801/100 : ℚ) - 106 ∧
    (on_image_msg 60 true c6St4 (10801/100) 640 480 "rgb8").2 = [] ∧
    (on_image_msg 60 true c6St4 (10801/100) 640 480 "rgb8").1.videoStream
      = c6St4.videoStream := by decide

/-! ### C1: effective target frame rate -/

/-- Fully evaluated form of the spawner on an unsupported encoding: no
spawn, one log line, process not running. -/
theorem start_ffmpeg_unsupported (X : H264Stream) (avail : Bool)
    (hpix : ROS_TO_FFMPEG_PIXFMT X.encoding = none) :
    start_ffmpeg X avail =
      ({ X with processRunning := false },
       [Ev.startAttempt X.fps X.encoding, Ev.logUnsupported X.encoding]) := by
  unfold start_ffmpeg
  rw [hpix]

/-- C1 (amended): every start or restart of a fed pipeline configures it
with imageTargetFps = min(override, ceiling) when a positive client
override is set and min(detected, ceiling) otherwise; every restart from
on_video_settings configures settingsTargetFps = min(override-or-detected,
ceiling).  The detected source rate is ignored whenever an override is
set, so the effective rate is not min(detected, ceiling, override) and
can exceed the detected rate (see the counterexample). -/
theorem C1_effective_target_fps (maxFps : ℕ) (avail : Bool) (st : TopicState) (now : ℚ)
    (w hpx : ℕ) (enc e : String) (f fpsArg : ℕ) (qualityArg : Option String) :
    (Ev.startAttempt f e ∈ (on_image_msg maxFps avail st now w hpx enc).2 →
      f = imageTargetFps maxFps (detect_fps st now).2 st.settings) ∧
    (Ev.startAttempt f e ∈ (on_video_settings maxFps avail st fpsArg qualityArg).2 →
      f = settingsTargetFps maxFps fpsArg st.detectedFps) := by
  have hset := detect_fps_settings st now
  constructor
  · intro hmem
    simp only [on_image_msg] at hmem
    split at hmem
    · simp at hmem
    · split at hmem
      · rcases startAttempt_mem_untagged _ _ _ _ _ _ _ _ hmem with ⟨h1, h2⟩
        simpa [hset] using h1
      · split at hmem
        · split at hmem
          · simp at hmem
          · simp only [H264Stream.restartWith] at hmem
            rcases startAttempt_mem_tagged _ _ _ _ _ _ _ _ _ (by simp) hmem with ⟨h1, h2⟩
            simpa [hset] using h1
        · split at hmem
          · simp only [H264Stream.restartWith] at hmem
            rcases startAttempt_mem_tagged _ _ _ _ _ _ _ _ _ (by simp) hmem with ⟨h1, h2⟩
            simpa [hset] using h1
          · split at hmem
            · simp only [H264Stream.restartWith] at hmem
              rcases startAttempt_mem_tagged _ _ _ _ _ _ _ _ _ (by simp) hmem with ⟨h1, h2⟩
              simpa [hset] using h1
            · simpa using feedEvents_mem _ _ hmem
  · intro hmem
    simp only [on_video_settings] at hmem
    split at hmem
    · simp at hmem
    · split at hmem
      · rcases List.mem_cons.mp hmem with h | h
        · simp at h
        · rcases List.mem_append.mp h with hS | hM
          · simp only [H264Stream.restartWith] at hS
            rcases start_ffmpeg_startAttempt _ _ _ _ hS with ⟨h1, h2⟩
            simpa using h1
          · simp at hM
      · simp at hmem

/-- C1 counterexample: with a client override of 60 fps and hardware
ceiling 60, a pipeline whose detected source rate is 10 fps is restarted
at 60 fps by on_video_settings (min of the three would be 10), and a
pipeline created on the first frame (detector returning the default 30)
is started at 60 fps (min of the three would be 30): the override wins
over the detected rate instead of being capped by it. -/
theorem C1_counterexample :
    c1St.detectedFps = some 10 ∧
    Ev.startAttempt 60 "rgb8" ∈ (on_video_settings 60 true c1St 60 (some "high")).2 ∧
    (detect_fps c1StB 100).2 = 30 ∧
    Ev.startAttempt 60 "rgb8" ∈ (on_image_msg 60 true c1StB 100 640 480 "rgb8").2 ∧
    min 10 (min 60 60) = 10 ∧ min 30 (min 60 60) = 30 ∧
    (60 : ℕ) ≠ 10 ∧ (60 : ℕ) ≠ 30 := by decide

/-! ### C3: unsupported pixel encoding -/

/-- C3 (amended): a source whose pixel encoding is missing from the
supported map never has an encoder process spawned — every start attempt
logs the unsupported encoding and leaves the process dead — but the
failure is not permanent: because the stream object exists with a dead
process, any later frame that passes the throttle gate and the 2-second
cooldown goes through the crash-restart path, re-running the start (which
fails and logs again).  The original claim's "no automatic retry of the
start is ever attempted" fails (see the counterexample). -/
theorem C3_unsupported_encoding (s : H264Stream) (avail : Bool) (maxFps : ℕ)
    (st : TopicState) (now : ℚ) (w hpx : ℕ) (enc : String) :
    (ROS_TO_FFMPEG_PIXFMT s.encoding = none →
      start_ffmpeg s avail =
        ({ s with processRunning := false },
         [Ev.startAttempt s.fps s.encoding, Ev.logUnsupported s.encoding]) ∧
      Ev.spawnProcess ∉ (start_ffmpeg s avail).2) ∧
    (st.videoStream = some s → s.processRunning = false →
      ROS_TO_FFMPEG_PIXFMT enc = none →
      1 / ((min (detect_fps st now).2 maxFps : ℕ) : ℚ) - 1/1000 ≤ now - st.lastImageFeedTime →
      2 ≤ now - s.lastRestartTime →
      Ev.crashRestart ∈ (on_image_msg maxFps avail st now w hpx enc).2 ∧
      Ev.logUnsupported enc ∈ (on_image_msg maxFps avail st now w hpx enc).2 ∧
      Ev.spawnProcess ∉ (on_image_msg maxFps avail st now w hpx enc).2) := by
  have hvsd := detect_fps_videoStream st now
  have hlfd := detect_fps_lastFeed st now
  constructor
  · intro hpix
    have heq := start_ffmpeg_unsupported s avail hpix
    refine ⟨heq, ?_⟩
    rw [heq]
    simp
  · intro hvs hdead hpix hthr hcool
    simp only [on_image_msg]
    rw [hlfd, if_neg (not_lt.mpr hthr)]
    split
    · rename_i heq
      rw [hvsd, hvs] at heq
      cases heq
    · rename_i s2 heq
      rw [hvsd, hvs] at heq
      injection heq with heq2
      subst heq2
      rw [if_pos hdead, if_neg (not_lt.mpr hcool)]
      simp only [H264Stream.restartWith]
      rw [start_ffmpeg_unsupported _ avail (by simpa using hpix)]
      simp [feedEvents]

/-- C3 counterexample: a source with the unsupported encoding "yuv422"
gets no spawned process and a logged error on the first frame, yet a
frame three seconds later goes through the crash-restart path and
re-attempts the start, logging the same error again — a retry the claim
says never happens. -/
theorem C3_counterexample :
    Ev.spawnProcess ∉ (on_image_msg 60 true initTopicState 100 640 480 "yuv422").2 ∧
    Ev.logUnsupported "yuv422" ∈ (on_image_msg 60 true initTopicState 100 640 480 "yuv422").2 ∧
    Ev.crashRestart ∈
      (on_image_msg 60 true (on_image_msg 60 true initTopicState 100 640 480 "yuv422").1
        103 640 480 "yuv422").2 ∧
    Ev.startAttempt 10 "yuv422" ∈
      (on_image_msg 60 true (on_image_msg 60 true initTopicState 100 640 480 "yuv422").1
        103 640 480 "yuv422").2 ∧
    Ev.logUnsupported "yuv422" ∈
      (on_image_msg 60 true (on_image_msg 60 true initTopicState 100 640 480 "yuv422").1
        103 640 480 "yuv422").2 := by decide

end USV
